import Mathlib

set_option maxHeartbeats 1000000

namespace SteamApps

/-!
Shallow embedding of the fetch-and-reconcile subsystem of the steam_apps
repository: the Steam store-API fetch and retry wrappers
(`_fetch_app_details_single`, the `@retry` decorator,
`get_app_details_with_retry`), the batch driver (`fetch_all_app_details` /
`process_single_app` in `main.py`), the retry sweep
(`process_failed_apps_batch` / `retry_failed_apps_loop` in
`retry_failed_apps.py`), and the JSON-file persistence layer
(`load_json_file`, `save_failed_app_ids_accumulative`, and friends).

Python dicts are modelled as association lists, JSON files as explicit
file-content values, and the network as stub fetcher functions.  A `calls`
trace records every id handed to the resolver, and the filesystem model
records a write count and a snapshot of the persisted files after every
completed checkpoint and final save, so that call-count and write-count
claims of the specification can be stated directly.
-/

/-- Detail record: models the Python dict returned for one app.  The record is
opaque to the pipeline; only its truthiness (empty vs non-empty) is inspected,
so an association list of string fields is a faithful model, with `[]` playing
the role of the empty dict `{}`. -/
abbrev Record := List (String × String)

/-- Detail map: models the `steam_apps_details.json` object, an insertion-ordered
mapping from stringified app id to detail record. -/
abbrev DetailMap := List (String × Record)

/-- Python `str(app_id)` for a nonnegative app id. -/
def key (n : Nat) : String := toString n

/-- Numeric value of a decimal digit character. -/
def digitVal (c : Char) : Nat := c.toNat - 48

/-- Value of a most-significant-digit-first character list. -/
def digitsVal : List Char → Nat
  | [] => 0
  | c :: ds => digitVal c * 10 ^ ds.length + digitsVal ds

theorem digitVal_digitChar {k : Nat} (h : k < 10) :
    digitVal (Nat.digitChar k) = k := by
  interval_cases k <;> decide

theorem toDigitsCore_val (fuel : Nat) :
    ∀ n ds, n < 10 ^ fuel →
      digitsVal (Nat.toDigitsCore 10 fuel n ds) = n * 10 ^ ds.length + digitsVal ds := by
  induction fuel with
  | zero =>
    intro n ds h
    have hn : n = 0 := Nat.lt_one_iff.mp (by simpa using h)
    subst hn
    simp [Nat.toDigitsCore]
  | succ f ih =>
    intro n ds h
    by_cases h10 : n / 10 = 0
    · have hn : n < 10 := by
        have := (Nat.div_eq_zero_iff (by norm_num : 0 < 10)).mp h10
        exact this
      have hmod : n % 10 = n := Nat.mod_eq_of_lt hn
      simp [Nat.toDigitsCore, h10, digitsVal, hmod, digitVal_digitChar hn]
    · have hdiv : n / 10 < 10 ^ f := by
        rw [pow_succ, mul_comm] at h
        exact Nat.div_lt_of_lt_mul h
      have hrec := ih (n / 10) (Nat.digitChar (n % 10) :: ds) hdiv
      have hmodlt : n % 10 < 10 := Nat.mod_lt n (by norm_num)
      simp only [Nat.toDigitsCore, h10, if_false]
      rw [hrec]
      simp only [digitsVal, List.length_cons, digitVal_digitChar hmodlt]
      have hring : n / 10 * 10 ^ (ds.length + 1) + (n % 10 * 10 ^ ds.length + digitsVal ds)
          = (n / 10 * 10 + n % 10) * 10 ^ ds.length + digitsVal ds := by ring
      rw [hring, Nat.div_add_mod']

theorem digitsVal_toDigits (n : Nat) : digitsVal (Nat.toDigits 10 n) = n := by
  have h1 : n < 10 ^ n := Nat.lt_pow_self (by norm_num) n
  have h2 : (10 : Nat) ^ n ≤ 10 ^ (n + 1) :=
    Nat.pow_le_pow_right (by norm_num) (Nat.le_succ n)
  have h := toDigitsCore_val (n + 1) n [] (lt_of_lt_of_le h1 h2)
  simpa [Nat.toDigits, digitsVal] using h

theorem key_injective : Function.Injective key := by
  intro a b h
  have hdata : Nat.toDigits 10 a = Nat.toDigits 10 b := congrArg String.data h
  calc a = digitsVal (Nat.toDigits 10 a) := (digitsVal_toDigits a).symm
    _ = digitsVal (Nat.toDigits 10 b) := by rw [hdata]
    _ = b := digitsVal_toDigits b

/-! Detail-map (Python dict) operations. -/

/-- Python `k in d` for the detail map. -/
def dmContains (k : String) (m : DetailMap) : Bool :=
  m.any (fun p => p.1 == k)

/-- Python `d[k] = v`: overwrite in place when the key is present, append otherwise. -/
def dmInsert (k : String) (v : Record) (m : DetailMap) : DetailMap :=
  if dmContains k m then m.map (fun p => if p.1 == k then (k, v) else p)
  else m ++ [(k, v)]

/-- Python `d.pop(k, None)`. -/
def dmErase (k : String) (m : DetailMap) : DetailMap :=
  m.filter (fun p => ¬ p.1 == k)

/-- Key list of a detail map (Python `d.keys()`). -/
def dmKeys (m : DetailMap) : List String :=
  m.map Prod.fst

theorem dmContains_iff (k : String) (m : DetailMap) :
    dmContains k m = true ↔ k ∈ dmKeys m := by
  simp [dmContains, dmKeys, List.any_eq_true, beq_iff_eq]

theorem dmKeys_replace (k : String) (v : Record) (m : DetailMap) :
    dmKeys (m.map (fun p => if p.1 == k then (k, v) else p)) = dmKeys m := by
  unfold dmKeys
  rw [List.map_map]
  apply List.map_congr_left
  intro p _
  by_cases h : p.1 == k
  · simp only [Function.comp_apply, h, if_true]
    exact (beq_iff_eq.mp h).symm
  · have h' : ¬ p.1 = k := by simpa using h
    simp [Function.comp_apply, h, h']

theorem dmKeys_insert (k : String) (v : Record) (m : DetailMap) :
    ∀ x, x ∈ dmKeys (dmInsert k v m) ↔ x ∈ dmKeys m ∨ x = k := by
  intro x
  unfold dmInsert
  by_cases hc : dmContains k m
  · rw [if_pos hc, dmKeys_replace]
    rw [dmContains_iff] at hc
    constructor
    · exact Or.inl
    · rintro (h | h)
      · exact h
      · exact h ▸ hc
  · rw [if_neg hc]
    simp [dmKeys, eq_comm]

/-! File contents and the tolerant loaders of the Reconciliation Store. -/

/-- State of a JSON file on disk, as seen by a loader: the file may be absent
(`FileNotFoundError`), unparseable (`json.JSONDecodeError`), or hold a parsed
value. -/
inductive FileContent (α : Type) where
  | missing : FileContent α
  | malformed : FileContent α
  | valid (a : α) : FileContent α
deriving Repr, DecidableEq

/-- Embedding of `load_json_file` (main.py): returns the parsed object with the
`updated_at` metadata key popped; a missing or malformed file yields the empty
dict instead of an exception. -/
def loadJsonFile : FileContent DetailMap → DetailMap
  | FileContent.missing => []
  | FileContent.malformed => []
  | FileContent.valid m => dmErase "updated_at" m

/-- Embedding of `load_failed_app_ids`: the parsed value is the
`failed_app_ids` list of the JSON object; missing or malformed files yield the
empty list. -/
def loadFailedAppIds : FileContent (List Nat) → List Nat
  | FileContent.missing => []
  | FileContent.malformed => []
  | FileContent.valid l => l

/-- Embedding of `load_non_existent_apps`: the parsed value is the
`non_existent_app_ids` list; missing or malformed files yield the empty list. -/
def loadNonExistentApps : FileContent (List Nat) → List Nat
  | FileContent.missing => []
  | FileContent.malformed => []
  | FileContent.valid l => l

/-- Persisted id-set file payload written by `save_failed_app_ids` /
`save_non_existent_apps`: the id list plus its `count` metadata field. -/
structure IdSetFile where
  ids : List Nat
  count : Nat
deriving Repr, DecidableEq

/-- Embedding of `save_failed_app_ids` / `save_non_existent_apps` payload
construction: `count` is the length of the saved list. -/
def mkIdSetFile (l : List Nat) : IdSetFile :=
  { ids := l, count := l.length }

/-- Embedding of the accumulative merge (`save_failed_app_ids_accumulative` /
`save_non_existent_apps_accumulative`): Python `list(set(existing + new))`,
modelled as deduplicated concatenation, which has the same underlying set and
the same length as the Python value. -/
def mergeIds (existing newIds : List Nat) : List Nat :=
  (existing ++ newIds).dedup

/-! The Remote Fetcher and the Retry Policy. -/

/-- Body of one well-formed app-details response, already projected to
`data[str(app_id)]`: the `success` flag (absent flag is modelled as `false`)
and the `data` object (absent data as the empty record). -/
structure ResponseBody where
  success : Bool
  data : Record
deriving Repr, DecidableEq

/-- Outcome of one HTTP GET against the details endpoint. -/
inductive HttpResult where
  | rateLimited : HttpResult
  | transportError : HttpResult
  | ok (body : ResponseBody) : HttpResult
deriving Repr, DecidableEq

/-- Embedding of `_fetch_app_details_single` / `get_app_details_single`: a 429
or any transport error raises (is retried by the decorator); a well-formed
response returns `data` when the success flag is set and the empty dict
otherwise (absence, deliberately not raised so it is never retried). -/
def fetchSingle : HttpResult → Except Unit Record
  | HttpResult.rateLimited => Except.error ()
  | HttpResult.transportError => Except.error ()
  | HttpResult.ok body => Except.ok (if body.success then body.data else [])

/-- Embedding of the `@retry(tries=...)` decorator loop: `f k` is the outcome
of attempt number `k` (0-based); an exception consumes an attempt, a returned
value stops immediately.  Returns the final outcome together with the number
of attempts performed. -/
def retryGo (f : Nat → Except Unit Record) : Nat → Nat → Except Unit Record × Nat
  | 0, used => (Except.error (), used)
  | rem + 1, used =>
    match f used with
    | Except.ok r => (Except.ok r, used + 1)
    | Except.error _ => retryGo f rem (used + 1)

/-- Retry wrapper around the single-attempt fetch (the decorated
`_fetch_app_details_with_retry` with `tries` attempts). -/
def retryCall (tries : Nat) (f : Nat → HttpResult) : Except Unit Record × Nat :=
  retryGo (fun k => fetchSingle (f k)) tries 0

/-- Embedding of `get_app_details_with_retry` /
`get_app_details_with_failure_info`: an exception escaping the retry wrapper
yields `(empty, is_hard_failure := true)`; any returned record (empty = absent,
non-empty = success) yields `is_hard_failure := false`.  The second component
of the result is the number of fetch attempts performed. -/
def resolveWithRetry (tries : Nat) (f : Nat → HttpResult) : (Record × Bool) × Nat :=
  match retryCall tries f with
  | (Except.ok r, n) => ((r, false), n)
  | (Except.error _, n) => (([], true), n)

/-! Drivers: in-memory state, persisted store, checkpointing, batch loop and
retry sweep. -/

/-- In-memory state threaded through a driver run: the detail map, the
in-flight failed and non-existent lists, and an instrumentation trace of every
app id handed to the resolver (used to state call-count properties against a
stub fetcher; it is not part of the Python program state). -/
structure BatchState where
  details : DetailMap
  failed : List Nat
  nonexistent : List Nat
  calls : List Nat
deriving Repr, DecidableEq

/-- Embedding of `process_single_app` (main.py): always resolves the id — there
is no already-in-map check on this path — then files the outcome: non-empty
record into the detail map under `str(app_id)`, hard failure into the failed
list, otherwise the non-existent list. -/
def processSingleApp (resolve : Nat → Record × Bool) (appId : Nat)
    (s : BatchState) : BatchState :=
  let d := (resolve appId).1
  let isFailure := (resolve appId).2
  let s1 : BatchState := { s with calls := s.calls ++ [appId] }
  if d.isEmpty then
    if isFailure then { s1 with failed := s1.failed ++ [appId] }
    else { s1 with nonexistent := s1.nonexistent ++ [appId] }
  else { s1 with details := dmInsert (key appId) d s1.details }

/-- Embedding of `process_single_failed_app` (retry_failed_apps.py), equally of
`SteamApiProcessor.process_single_app` with `is_retry=True`: an id whose string
form is already a key of the detail map is skipped outright — no fetch, no list
update. -/
def processSingleFailedApp (resolve : Nat → Record × Bool) (appId : Nat)
    (s : BatchState) : BatchState :=
  if dmContains (key appId) s.details then s
  else processSingleApp resolve appId s

/-- Persisted artifacts: `steam_apps_details.json`, `failed_app_ids.json`
(written accumulatively by batch checkpoints), `failed_fetch_app_ids.json`
(overwritten by `run_fetch_phase` and the retry sweep), and
`non_existent_apps.json`. -/
structure Store where
  detailsFile : DetailMap
  failedFile : List Nat
  failedFetchFile : List Nat
  nonexistentFile : List Nat
deriving Repr, DecidableEq

/-- Filesystem model: the persisted store, a count of completed file writes,
and a snapshot of the store taken after every completed checkpoint and final
save (so that "after any completed checkpoint" properties quantify over
`snapshots`). -/
structure Fs where
  store : Store
  writeCount : Nat
  snapshots : List Store
deriving Repr, DecidableEq

/-- Embedding of `save_json_file` on the detail-map file (whole-file
overwrite). -/
def fsSaveDetails (m : DetailMap) (fs : Fs) : Fs :=
  { fs with
      store := { fs.store with detailsFile := m }
      writeCount := fs.writeCount + 1 }

/-- Embedding of `save_failed_app_ids_accumulative` on
`failed_app_ids.json`: load, union with the new ids, re-save. -/
def fsMergeFailed (newIds : List Nat) (fs : Fs) : Fs :=
  { fs with
      store := { fs.store with failedFile := mergeIds fs.store.failedFile newIds }
      writeCount := fs.writeCount + 1 }

/-- Embedding of `save_failed_app_ids` on `failed_fetch_app_ids.json`
(plain overwrite, no union). -/
def fsOverwriteFailedFetch (newIds : List Nat) (fs : Fs) : Fs :=
  { fs with
      store := { fs.store with failedFetchFile := newIds }
      writeCount := fs.writeCount + 1 }

/-- Embedding of `save_non_existent_apps_accumulative` on
`non_existent_apps.json`. -/
def fsMergeNonexistent (newIds : List Nat) (fs : Fs) : Fs :=
  { fs with
      store := { fs.store with nonexistentFile := mergeIds fs.store.nonexistentFile newIds }
      writeCount := fs.writeCount + 1 }

/-- Embedding of `save_non_existent_apps` (plain overwrite, used by
`run_fetch_phase`). -/
def fsOverwriteNonexistent (newIds : List Nat) (fs : Fs) : Fs :=
  { fs with
      store := { fs.store with nonexistentFile := newIds }
      writeCount := fs.writeCount + 1 }

/-- Records the persisted store after a completed checkpoint or final save. -/
def pushSnapshot (fs : Fs) : Fs :=
  { fs with snapshots := fs.snapshots ++ [fs.store] }

/-- Embedding of `save_intermediate_results` (main.py): overwrite the detail
map, then accumulatively merge the in-flight non-existent and failed lists
when non-empty. -/
def saveIntermediateBatch (s : BatchState) (fs : Fs) : Fs :=
  let fs1 := fsSaveDetails s.details fs
  let fs2 := if s.nonexistent.isEmpty then fs1 else fsMergeNonexistent s.nonexistent fs1
  let fs3 := if s.failed.isEmpty then fs2 else fsMergeFailed s.failed fs2
  pushSnapshot fs3

/-- Embedding of `save_intermediate_results` (retry_failed_apps.py): identical
except that the still-failed list is written to `failed_fetch_app_ids.json` by
plain overwrite. -/
def saveIntermediateRetry (s : BatchState) (fs : Fs) : Fs :=
  let fs1 := fsSaveDetails s.details fs
  let fs2 := if s.nonexistent.isEmpty then fs1 else fsMergeNonexistent s.nonexistent fs1
  let fs3 := if s.failed.isEmpty then fs2 else fsOverwriteFailedFetch s.failed fs2
  pushSnapshot fs3

/-- Main loop of `fetch_all_app_details`: process each id in order and
checkpoint every `batchSize` processed items (`i % batch_size == 0` with
1-based `i`).  The inter-request sleep has no observable effect in the
model. -/
def fetchLoop (resolve : Nat → Record × Bool) (batchSize : Nat) :
    List Nat → Nat → BatchState → Fs → BatchState × Fs
  | [], _, s, fs => (s, fs)
  | appId :: rest, i, s, fs =>
    let s1 := processSingleApp resolve appId s
    let fs1 := if (i + 1) % batchSize == 0 then saveIntermediateBatch s1 fs else fs
    fetchLoop resolve batchSize rest (i + 1) s1 fs1

/-- Embedding of `fetch_all_app_details` (main.py): load the persisted detail
map, run the loop, then unconditionally perform the final full save of the
detail map.  Returns the final in-memory state (map plus this run's in-flight
lists) and the filesystem. -/
def fetchAllAppDetails (resolve : Nat → Record × Bool) (batchSize : Nat)
    (appIds : List Nat) (fs : Fs) : BatchState × Fs :=
  let s0 : BatchState :=
    { details := fs.store.detailsFile, failed := [], nonexistent := [], calls := [] }
  let r := fetchLoop resolve batchSize appIds 0 s0 fs
  (r.1, pushSnapshot (fsSaveDetails r.1.details r.2))

/-- Embedding of `run_fetch_phase` (main.py): empty input short-circuits with
empty results and no store access; otherwise run the batch driver, then
overwrite `failed_fetch_app_ids.json` with this run's failed list (when
non-empty) and `non_existent_apps.json` with this run's non-existent list
(when non-empty). -/
def runFetchPhase (resolve : Nat → Record × Bool) (batchSize : Nat)
    (appIds : List Nat) (fs : Fs) : BatchState × Fs :=
  if appIds.isEmpty then
    ({ details := [], failed := [], nonexistent := [], calls := [] }, fs)
  else
    let r := fetchAllAppDetails resolve batchSize appIds fs
    let fs1 := if r.1.failed.isEmpty then r.2 else fsOverwriteFailedFetch r.1.failed r.2
    let fs2 := if r.1.nonexistent.isEmpty then fs1 else fsOverwriteNonexistent r.1.nonexistent fs1
    (r.1, fs2)

/-- Retry-mode loop of `process_failed_apps_batch`: like `fetchLoop` but each
app goes through the skip-if-already-present check and checkpoints use the
retry-flavoured save. -/
def retryLoop (resolve : Nat → Record × Bool) (batchSize : Nat) :
    List Nat → Nat → BatchState → Fs → BatchState × Fs
  | [], _, s, fs => (s, fs)
  | appId :: rest, i, s, fs =>
    let s1 := processSingleFailedApp resolve appId s
    let fs1 := if (i + 1) % batchSize == 0 then saveIntermediateRetry s1 fs else fs
    retryLoop resolve batchSize rest (i + 1) s1 fs1

/-- Result of one `process_failed_apps_batch` invocation. -/
structure SweepResult where
  stillFailed : List Nat
  nonExistent : List Nat
  state : BatchState
  fs : Fs
deriving Repr, DecidableEq

/-- Embedding of `process_failed_apps_batch` (retry_failed_apps.py): load the
detail map, filter out ids whose string form is already a key, return
immediately when nothing is left, otherwise process the filtered list in retry
mode and finish with the final detail-map save. -/
def processFailedAppsBatch (resolve : Nat → Record × Bool) (batchSize : Nat)
    (failedAppIds : List Nat) (fs : Fs) : SweepResult :=
  let allAppDetails := fs.store.detailsFile
  let appsToProcess :=
    failedAppIds.filter (fun appId => ¬ dmContains (key appId) allAppDetails)
  if appsToProcess.isEmpty then
    { stillFailed := [], nonExistent := [],
      state := { details := allAppDetails, failed := [], nonexistent := [], calls := [] },
      fs := fs }
  else
    let s0 : BatchState :=
      { details := allAppDetails, failed := [], nonexistent := [], calls := [] }
    let r := retryLoop resolve batchSize appsToProcess 0 s0 fs
    { stillFailed := r.1.failed, nonExistent := r.1.nonexistent,
      state := r.1, fs := pushSnapshot (fsSaveDetails r.1.details r.2) }

/-- Embedding of one iteration of `retry_failed_apps_loop`: load the persisted
failed-fetch set, run `process_failed_apps_batch`, merge the new confirmed
absences into `non_existent_apps.json` (union), and overwrite
`failed_fetch_app_ids.json` with exactly the still-failing list (the empty
list clears the file). -/
def retrySweepIteration (resolve : Nat → Record × Bool) (batchSize : Nat)
    (fs : Fs) : Fs :=
  let failedAppIds := fs.store.failedFetchFile
  let r := processFailedAppsBatch resolve batchSize failedAppIds fs
  let fs1 := if r.nonExistent.isEmpty then r.fs else fsMergeNonexistent r.nonExistent r.fs
  pushSnapshot (fsOverwriteFailedFetch r.stillFailed fs1)

/-- Embedding of `validate_apps_locally` (main.py): walk the catalog ids (the
keys of `steam_apps_dict.json`, metadata key excluded, modelled by their
integer values), skip ids marked non-existent, and select those whose string
form is not yet a key of the existing details. -/
def validateAppsLocally (catalogIds : List Nat) (existingDetails : DetailMap)
    (nonExistent : List Nat) : List Nat :=
  catalogIds.filterMap (fun appId =>
    if nonExistent.contains appId then none
    else if dmContains (key appId) existingDetails then none
    else some appId)

/-- Per-app outcome classification of a stub resolver, mirroring the branch
structure of `process_single_app`. -/
def isSuccessOutcome (resolve : Nat → Record × Bool) (appId : Nat) : Bool :=
  ¬ (resolve appId).1.isEmpty

/-- Hard failure: empty record with the failure flag set. -/
def isHardFailOutcome (resolve : Nat → Record × Bool) (appId : Nat) : Bool :=
  (resolve appId).1.isEmpty && (resolve appId).2

/-- Confirmed absence: empty record with the failure flag clear. -/
def isAbsentOutcome (resolve : Nat → Record × Bool) (appId : Nat) : Bool :=
  (resolve appId).1.isEmpty && ¬ (resolve appId).2

/-! Per-step lemmas about `processSingleApp`. -/

theorem processSingleApp_calls (resolve : Nat → Record × Bool) (a : Nat) (s : BatchState) :
    (processSingleApp resolve a s).calls = s.calls ++ [a] := by
  unfold processSingleApp
  by_cases h1 : (resolve a).1.isEmpty <;> by_cases h2 : (resolve a).2 <;> simp [h1, h2]

theorem processSingleApp_failed (resolve : Nat → Record × Bool) (a : Nat) (s : BatchState) :
    (processSingleApp resolve a s).failed
      = s.failed ++ (if isHardFailOutcome resolve a then [a] else []) := by
  unfold processSingleApp isHardFailOutcome
  by_cases h1 : (resolve a).1.isEmpty <;> by_cases h2 : (resolve a).2 <;> simp [h1, h2]

theorem processSingleApp_nonexistent (resolve : Nat → Record × Bool) (a : Nat) (s : BatchState) :
    (processSingleApp resolve a s).nonexistent
      = s.nonexistent ++ (if isAbsentOutcome resolve a then [a] else []) := by
  unfold processSingleApp isAbsentOutcome
  by_cases h1 : (resolve a).1.isEmpty <;> by_cases h2 : (resolve a).2 <;> simp [h1, h2]

theorem processSingleApp_details (resolve : Nat → Record × Bool) (a : Nat) (s : BatchState) :
    (processSingleApp resolve a s).details
      = if isSuccessOutcome resolve a then dmInsert (key a) (resolve a).1 s.details
        else s.details := by
  unfold processSingleApp isSuccessOutcome
  by_cases h1 : (resolve a).1.isEmpty <;> by_cases h2 : (resolve a).2 <;> simp [h1, h2]

theorem outcome_trichotomy (resolve : Nat → Record × Bool) (a : Nat) :
    (isSuccessOutcome resolve a = true ∧ isHardFailOutcome resolve a = false
      ∧ isAbsentOutcome resolve a = false)
    ∨ (isSuccessOutcome resolve a = false ∧ isHardFailOutcome resolve a = true
      ∧ isAbsentOutcome resolve a = false)
    ∨ (isSuccessOutcome resolve a = false ∧ isHardFailOutcome resolve a = false
      ∧ isAbsentOutcome resolve a = true) := by
  unfold isSuccessOutcome isHardFailOutcome isAbsentOutcome
  by_cases h1 : (resolve a).1.isEmpty <;> by_cases h2 : (resolve a).2 <;> simp [h1, h2]

/-! Characterization of the batch loop's in-memory state: since
`process_single_app` never consults the detail map, every input id is
resolved, and the in-flight lists collect exactly the hard-failure and
absence outcomes. -/

theorem fetchLoop_state_calls (resolve : Nat → Record × Bool) (b : Nat) :
    ∀ (l : List Nat) (i : Nat) (s : BatchState) (fs : Fs),
      (fetchLoop resolve b l i s fs).1.calls = s.calls ++ l := by
  intro l
  induction l with
  | nil => intro i s fs; simp [fetchLoop]
  | cons a l ih =>
    intro i s fs
    show (fetchLoop resolve b l (i + 1) (processSingleApp resolve a s) _).1.calls = _
    rw [ih, processSingleApp_calls]
    simp

theorem fetchLoop_state_failed (resolve : Nat → Record × Bool) (b : Nat) :
    ∀ (l : List Nat) (i : Nat) (s : BatchState) (fs : Fs),
      (fetchLoop resolve b l i s fs).1.failed
        = s.failed ++ l.filter (fun x => isHardFailOutcome resolve x) := by
  intro l
  induction l with
  | nil => intro i s fs; simp [fetchLoop]
  | cons a l ih =>
    intro i s fs
    show (fetchLoop resolve b l (i + 1) (processSingleApp resolve a s) _).1.failed = _
    rw [ih, processSingleApp_failed]
    by_cases h : isHardFailOutcome resolve a <;> simp [h, List.filter_cons]

theorem fetchLoop_state_nonexistent (resolve : Nat → Record × Bool) (b : Nat) :
    ∀ (l : List Nat) (i : Nat) (s : BatchState) (fs : Fs),
      (fetchLoop resolve b l i s fs).1.nonexistent
        = s.nonexistent ++ l.filter (fun x => isAbsentOutcome resolve x) := by
  intro l
  induction l with
  | nil => intro i s fs; simp [fetchLoop]
  | cons a l ih =>
    intro i s fs
    show (fetchLoop resolve b l (i + 1) (processSingleApp resolve a s) _).1.nonexistent = _
    rw [ih, processSingleApp_nonexistent]
    by_cases h : isAbsentOutcome resolve a <;> simp [h, List.filter_cons]

theorem fetchLoop_keys_iff (resolve : Nat → Record × Bool) (b : Nat) :
    ∀ (l : List Nat) (i : Nat) (s : BatchState) (fs : Fs) (x : String),
      x ∈ dmKeys (fetchLoop resolve b l i s fs).1.details
        ↔ x ∈ dmKeys s.details
          ∨ ∃ a, a ∈ l ∧ isSuccessOutcome resolve a = true ∧ x = key a := by
  intro l
  induction l with
  | nil => intro i s fs x; simp [fetchLoop]
  | cons a l ih =>
    intro i s fs x
    show x ∈ dmKeys (fetchLoop resolve b l (i + 1) (processSingleApp resolve a s) _).1.details ↔ _
    rw [ih]
    rw [processSingleApp_details]
    by_cases h : isSuccessOutcome resolve a
    · simp only [h, if_true]
      rw [dmKeys_insert]
      constructor
      · rintro ((hx | hx) | ⟨a', ha', hs', hx⟩)
        · exact Or.inl hx
        · exact Or.inr ⟨a, List.mem_cons_self a l, h, hx⟩
        · exact Or.inr ⟨a', List.mem_cons_of_mem a ha', hs', hx⟩
      · rintro (hx | ⟨a', ha', hs', hx⟩)
        · exact Or.inl (Or.inl hx)
        · rcases List.mem_cons.mp ha' with h1 | h1
          · exact Or.inl (Or.inr (h1 ▸ hx))
          · exact Or.inr ⟨a', h1, hs', hx⟩
    · simp only [h, if_false]
      constructor
      · rintro (hx | ⟨a', ha', hs', hx⟩)
        · exact Or.inl hx
        · exact Or.inr ⟨a', List.mem_cons_of_mem a ha', hs', hx⟩
      · rintro (hx | ⟨a', ha', hs', hx⟩)
        · exact Or.inl hx
        · rcases List.mem_cons.mp ha' with h1 | h1
          · exact absurd hs' (by simp [h1, h])
          · exact Or.inr ⟨a', h1, hs', hx⟩

/-! Retry-mode processing lemmas. -/

theorem mem_mergeIds (x : Nat) (a b : List Nat) :
    x ∈ mergeIds a b ↔ x ∈ a ∨ x ∈ b := by
  simp [mergeIds, List.mem_dedup]

theorem dmContains_insert_iff (k : String) (v : Record) (m : DetailMap) (x : String) :
    dmContains x (dmInsert k v m) = true ↔ dmContains x m = true ∨ x = k := by
  rw [dmContains_iff, dmKeys_insert, dmContains_iff]

theorem success_of_hardFail_false (resolve : Nat → Record × Bool) (a : Nat)
    (h : isHardFailOutcome resolve a = true) : isSuccessOutcome resolve a = false := by
  rcases outcome_trichotomy resolve a with ⟨h1, h2, _⟩ | ⟨h1, _, _⟩ | ⟨h1, _, _⟩
  · rw [h2] at h; exact absurd h (by simp)
  · exact h1
  · exact h1

theorem success_of_absent_false (resolve : Nat → Record × Bool) (a : Nat)
    (h : isAbsentOutcome resolve a = true) : isSuccessOutcome resolve a = false := by
  rcases outcome_trichotomy resolve a with ⟨h1, _, h3⟩ | ⟨h1, _, _⟩ | ⟨h1, _, _⟩
  · rw [h3] at h; exact absurd h (by simp)
  · exact h1
  · exact h1

theorem hardFail_of_success_false (resolve : Nat → Record × Bool) (a : Nat)
    (h : isSuccessOutcome resolve a = true) : isHardFailOutcome resolve a = false := by
  rcases outcome_trichotomy resolve a with ⟨_, h2, _⟩ | ⟨h1, _, _⟩ | ⟨h1, _, _⟩
  · exact h2
  · rw [h1] at h; exact absurd h (by simp)
  · rw [h1] at h; exact absurd h (by simp)

theorem absent_of_success_false (resolve : Nat → Record × Bool) (a : Nat)
    (h : isSuccessOutcome resolve a = true) : isAbsentOutcome resolve a = false := by
  rcases outcome_trichotomy resolve a with ⟨_, _, h3⟩ | ⟨h1, _, _⟩ | ⟨h1, _, _⟩
  · exact h3
  · rw [h1] at h; exact absurd h (by simp)
  · rw [h1] at h; exact absurd h (by simp)

theorem retryLoop_char (resolve : Nat → Record × Bool) (b : Nat) :
    ∀ (l : List Nat) (i : Nat) (s : BatchState) (fs : Fs),
      (∀ a ∈ l, isSuccessOutcome resolve a = false →
        dmContains (key a) s.details = false) →
      (retryLoop resolve b l i s fs).1.failed
          = s.failed ++ l.filter (fun x => isHardFailOutcome resolve x)
        ∧ (retryLoop resolve b l i s fs).1.nonexistent
          = s.nonexistent ++ l.filter (fun x => isAbsentOutcome resolve x)
        ∧ (∀ x, x ∈ dmKeys (retryLoop resolve b l i s fs).1.details
          ↔ x ∈ dmKeys s.details
            ∨ ∃ a, a ∈ l ∧ isSuccessOutcome resolve a = true ∧ x = key a) := by
  intro l
  induction l with
  | nil => intro i s fs H; simp [retryLoop]
  | cons a l ih =>
    intro i s fs H
    simp only [retryLoop]
    by_cases hc : dmContains (key a) s.details = true
    · have hs : isSuccessOutcome resolve a = true := by
        by_contra hfalse
        have := H a (List.mem_cons_self a l) (by simpa using hfalse)
        rw [hc] at this
        exact absurd this (by simp)
      have hskip : processSingleFailedApp resolve a s = s := by
        unfold processSingleFailedApp
        rw [if_pos hc]
      rw [hskip]
      have H' : ∀ a' ∈ l, isSuccessOutcome resolve a' = false →
          dmContains (key a') s.details = false :=
        fun a' ha' => H a' (List.mem_cons_of_mem a ha')
      obtain ⟨ihf, ihn, ihk⟩ := ih (i + 1) s _ H'
      refine ⟨?_, ?_, ?_⟩
      · rw [ihf, List.filter_cons, hardFail_of_success_false resolve a hs]
        simp
      · rw [ihn, List.filter_cons, absent_of_success_false resolve a hs]
        simp
      · intro x
        rw [ihk]
        constructor
        · rintro (hx | ⟨a', ha', hs', hx⟩)
          · exact Or.inl hx
          · exact Or.inr ⟨a', List.mem_cons_of_mem a ha', hs', hx⟩
        · rintro (hx | ⟨a', ha', hs', hx⟩)
          · exact Or.inl hx
          · rcases List.mem_cons.mp ha' with h1 | h1
            · subst h1
              exact Or.inl (hx ▸ (dmContains_iff _ _).mp hc)
            · exact Or.inr ⟨a', h1, hs', hx⟩
    · have hstep : processSingleFailedApp resolve a s = processSingleApp resolve a s := by
        unfold processSingleFailedApp
        rw [if_neg hc]
      rw [hstep]
      by_cases hs : isSuccessOutcome resolve a = true
      · have hdet : (processSingleApp resolve a s).details
            = dmInsert (key a) (resolve a).1 s.details := by
          rw [processSingleApp_details, if_pos hs]
        have H' : ∀ a' ∈ l, isSuccessOutcome resolve a' = false →
            dmContains (key a') (processSingleApp resolve a s).details = false := by
          intro a' ha' hs'
          rw [hdet]
          have hne : a' ≠ a := fun he => by rw [he, hs] at hs'; exact absurd hs' (by simp)
          have h1 : dmContains (key a') s.details = false :=
            H a' (List.mem_cons_of_mem a ha') hs'
          by_contra hcontra
          have : dmContains (key a') (dmInsert (key a) (resolve a).1 s.details) = true := by
            revert hcontra
            cases hcc : dmContains (key a') (dmInsert (key a) (resolve a).1 s.details) <;> simp
          rcases (dmContains_insert_iff _ _ _ _).mp this with h2 | h2
          · rw [h1] at h2; exact absurd h2 (by simp)
          · exact hne (key_injective h2)
        obtain ⟨ihf, ihn, ihk⟩ := ih (i + 1) (processSingleApp resolve a s) _ H'
        refine ⟨?_, ?_, ?_⟩
        · rw [ihf, processSingleApp_failed, hardFail_of_success_false resolve a hs,
            List.filter_cons, hardFail_of_success_false resolve a hs]
          simp
        · rw [ihn, processSingleApp_nonexistent, absent_of_success_false resolve a hs,
            List.filter_cons, absent_of_success_false resolve a hs]
          simp
        · intro x
          rw [ihk, hdet, dmKeys_insert]
          constructor
          · rintro ((hx | hx) | ⟨a', ha', hs', hx⟩)
            · exact Or.inl hx
            · exact Or.inr ⟨a, List.mem_cons_self a l, hs, hx⟩
            · exact Or.inr ⟨a', List.mem_cons_of_mem a ha', hs', hx⟩
          · rintro (hx | ⟨a', ha', hs', hx⟩)
            · exact Or.inl (Or.inl hx)
            · rcases List.mem_cons.mp ha' with h1 | h1
              · exact Or.inl (Or.inr (h1 ▸ hx))
              · exact Or.inr ⟨a', h1, hs', hx⟩
      · have hsf : isSuccessOutcome resolve a = false := by
          cases hss : isSuccessOutcome resolve a
          · rfl
          · exact absurd hss hs
        have hdet : (processSingleApp resolve a s).details = s.details := by
          rw [processSingleApp_details, if_neg (by rw [hsf]; simp)]
        have H' : ∀ a' ∈ l, isSuccessOutcome resolve a' = false →
            dmContains (key a') (processSingleApp resolve a s).details = false := by
          intro a' ha' hs'
          rw [hdet]
          exact H a' (List.mem_cons_of_mem a ha') hs'
        obtain ⟨ihf, ihn, ihk⟩ := ih (i + 1) (processSingleApp resolve a s) _ H'
        refine ⟨?_, ?_, ?_⟩
        · rw [ihf, processSingleApp_failed, List.filter_cons]
          by_cases hh : isHardFailOutcome resolve a <;> simp [hh]
        · rw [ihn, processSingleApp_nonexistent, List.filter_cons]
          by_cases hh : isAbsentOutcome resolve a <;> simp [hh]
        · intro x
          rw [ihk, hdet]
          constructor
          · rintro (hx | ⟨a', ha', hs', hx⟩)
            · exact Or.inl hx
            · exact Or.inr ⟨a', List.mem_cons_of_mem a ha', hs', hx⟩
          · rintro (hx | ⟨a', ha', hs', hx⟩)
            · exact Or.inl hx
            · rcases List.mem_cons.mp ha' with h1 | h1
              · rw [h1] at hs'
                rw [hsf] at hs'
                exact absurd hs' (by simp)
              · exact Or.inr ⟨a', h1, hs', hx⟩

theorem processSingleFailedApp_calls_sub (resolve : Nat → Record × Bool) (a : Nat)
    (s : BatchState) (x : Nat) :
    x ∈ (processSingleFailedApp resolve a s).calls → x ∈ s.calls ∨ x = a := by
  unfold processSingleFailedApp
  by_cases hc : dmContains (key a) s.details
  · rw [if_pos hc]
    exact Or.inl
  · rw [if_neg hc, processSingleApp_calls]
    intro h
    simpa using List.mem_append.mp h

theorem processSingleFailedApp_failed_sub (resolve : Nat → Record × Bool) (a : Nat)
    (s : BatchState) (x : Nat) :
    x ∈ (processSingleFailedApp resolve a s).failed → x ∈ s.failed ∨ x = a := by
  unfold processSingleFailedApp
  by_cases hc : dmContains (key a) s.details
  · rw [if_pos hc]
    exact Or.inl
  · rw [if_neg hc, processSingleApp_failed]
    intro h
    rcases List.mem_append.mp h with h1 | h1
    · exact Or.inl h1
    · by_cases hh : isHardFailOutcome resolve a
      · rw [if_pos hh] at h1
        exact Or.inr (by simpa using h1)
      · rw [if_neg hh] at h1
        exact absurd h1 (by simp)

theorem processSingleFailedApp_nonexistent_sub (resolve : Nat → Record × Bool) (a : Nat)
    (s : BatchState) (x : Nat) :
    x ∈ (processSingleFailedApp resolve a s).nonexistent → x ∈ s.nonexistent ∨ x = a := by
  unfold processSingleFailedApp
  by_cases hc : dmContains (key a) s.details
  · rw [if_pos hc]
    exact Or.inl
  · rw [if_neg hc, processSingleApp_nonexistent]
    intro h
    rcases List.mem_append.mp h with h1 | h1
    · exact Or.inl h1
    · by_cases hh : isAbsentOutcome resolve a
      · rw [if_pos hh] at h1
        exact Or.inr (by simpa using h1)
      · rw [if_neg hh] at h1
        exact absurd h1 (by simp)

theorem processSingleFailedApp_nonexistent_mono (resolve : Nat → Record × Bool) (a : Nat)
    (s : BatchState) (x : Nat) :
    x ∈ s.nonexistent → x ∈ (processSingleFailedApp resolve a s).nonexistent := by
  unfold processSingleFailedApp
  by_cases hc : dmContains (key a) s.details
  · rw [if_pos hc]
    exact id
  · rw [if_neg hc, processSingleApp_nonexistent]
    intro h
    exact List.mem_append.mpr (Or.inl h)

theorem retryLoop_calls_sub (resolve : Nat → Record × Bool) (b : Nat) :
    ∀ (l : List Nat) (i : Nat) (s : BatchState) (fs : Fs) (x : Nat),
      x ∈ (retryLoop resolve b l i s fs).1.calls → x ∈ s.calls ∨ x ∈ l := by
  intro l
  induction l with
  | nil => intro i s fs x h; exact Or.inl (by simpa [retryLoop] using h)
  | cons a l ih =>
    intro i s fs x h
    simp only [retryLoop] at h
    rcases ih _ _ _ _ h with h1 | h1
    · rcases processSingleFailedApp_calls_sub resolve a s x h1 with h2 | h2
      · exact Or.inl h2
      · exact Or.inr (by simp [h2])
    · exact Or.inr (List.mem_cons_of_mem a h1)

theorem retryLoop_failed_sub (resolve : Nat → Record × Bool) (b : Nat) :
    ∀ (l : List Nat) (i : Nat) (s : BatchState) (fs : Fs) (x : Nat),
      x ∈ (retryLoop resolve b l i s fs).1.failed → x ∈ s.failed ∨ x ∈ l := by
  intro l
  induction l with
  | nil => intro i s fs x h; exact Or.inl (by simpa [retryLoop] using h)
  | cons a l ih =>
    intro i s fs x h
    simp only [retryLoop] at h
    rcases ih _ _ _ _ h with h1 | h1
    · rcases processSingleFailedApp_failed_sub resolve a s x h1 with h2 | h2
      · exact Or.inl h2
      · exact Or.inr (by simp [h2])
    · exact Or.inr (List.mem_cons_of_mem a h1)

theorem retryLoop_nonexistent_sub (resolve : Nat → Record × Bool) (b : Nat) :
    ∀ (l : List Nat) (i : Nat) (s : BatchState) (fs : Fs) (x : Nat),
      x ∈ (retryLoop resolve b l i s fs).1.nonexistent → x ∈ s.nonexistent ∨ x ∈ l := by
  intro l
  induction l with
  | nil => intro i s fs x h; exact Or.inl (by simpa [retryLoop] using h)
  | cons a l ih =>
    intro i s fs x h
    simp only [retryLoop] at h
    rcases ih _ _ _ _ h with h1 | h1
    · rcases processSingleFailedApp_nonexistent_sub resolve a s x h1 with h2 | h2
      · exact Or.inl h2
      · exact Or.inr (by simp [h2])
    · exact Or.inr (List.mem_cons_of_mem a h1)

theorem retryLoop_nonexistent_mono (resolve : Nat → Record × Bool) (b : Nat) :
    ∀ (l : List Nat) (i : Nat) (s : BatchState) (fs : Fs) (x : Nat),
      x ∈ s.nonexistent → x ∈ (retryLoop resolve b l i s fs).1.nonexistent := by
  intro l
  induction l with
  | nil => intro i s fs x h; simpa [retryLoop] using h
  | cons a l ih =>
    intro i s fs x h
    simp only [retryLoop]
    exact ih _ _ _ _ (processSingleFailedApp_nonexistent_mono resolve a s x h)

theorem saveIntermediateRetry_nonexistentFile (s : BatchState) (fs : Fs) :
    (saveIntermediateRetry s fs).store.nonexistentFile
      = if s.nonexistent.isEmpty then fs.store.nonexistentFile
        else mergeIds fs.store.nonexistentFile s.nonexistent := by
  unfold saveIntermediateRetry fsSaveDetails fsMergeNonexistent fsOverwriteFailedFetch pushSnapshot
  by_cases hn : s.nonexistent.isEmpty <;> by_cases hf : s.failed.isEmpty <;> simp [hn, hf]

theorem retryLoop_nonexistentFile_super (resolve : Nat → Record × Bool) (b : Nat) :
    ∀ (l : List Nat) (i : Nat) (s : BatchState) (fs : Fs) (x : Nat),
      x ∈ fs.store.nonexistentFile →
        x ∈ (retryLoop resolve b l i s fs).2.store.nonexistentFile := by
  intro l
  induction l with
  | nil => intro i s fs x h; simpa [retryLoop] using h
  | cons a l ih =>
    intro i s fs x h
    simp only [retryLoop]
    apply ih
    by_cases hcp : ((i + 1) % b == 0) = true
    · rw [if_pos hcp, saveIntermediateRetry_nonexistentFile]
      by_cases hn : (processSingleFailedApp resolve a s).nonexistent.isEmpty
      · rw [if_pos hn]
        exact h
      · rw [if_neg hn]
        exact (mem_mergeIds _ _ _).mpr (Or.inl h)
    · rw [if_neg hcp]
      exact h

theorem retryLoop_nonexistentFile_sub (resolve : Nat → Record × Bool) (b : Nat) :
    ∀ (l : List Nat) (i : Nat) (s : BatchState) (fs : Fs) (x : Nat),
      x ∈ (retryLoop resolve b l i s fs).2.store.nonexistentFile →
        x ∈ fs.store.nonexistentFile ∨ x ∈ (retryLoop resolve b l i s fs).1.nonexistent := by
  intro l
  induction l with
  | nil => intro i s fs x h; exact Or.inl (by simpa [retryLoop] using h)
  | cons a l ih =>
    intro i s fs x h
    simp only [retryLoop] at h ⊢
    rcases ih _ _ _ _ h with h1 | h1
    · by_cases hcp : ((i + 1) % b == 0) = true
      · rw [if_pos hcp, saveIntermediateRetry_nonexistentFile] at h1
        by_cases hn : (processSingleFailedApp resolve a s).nonexistent.isEmpty
        · rw [if_pos hn] at h1
          exact Or.inl h1
        · rw [if_neg hn] at h1
          rcases (mem_mergeIds _ _ _).mp h1 with h2 | h2
          · exact Or.inl h2
          · exact Or.inr (retryLoop_nonexistent_mono resolve b l (i + 1) _ _ x h2)
      · rw [if_neg hcp] at h1
        exact Or.inl h1
    · exact Or.inr h1

/-! Disjointness invariant of the batch driver's persisted artifacts. -/

/-- No id of `ids` has its string form among the keys of `m`. -/
def keyFree (m : DetailMap) (ids : List Nat) : Prop :=
  ∀ id ∈ ids, key id ∉ dmKeys m

/-- Disjointness of a persisted store: the detail-map keys meet neither
failed-id file nor the non-existent file (the specification's invariant). -/
def StoreOk (st : Store) : Prop :=
  keyFree st.detailsFile st.failedFile
    ∧ keyFree st.detailsFile st.failedFetchFile
    ∧ keyFree st.detailsFile st.nonexistentFile

theorem saveIB_details (s : BatchState) (fs : Fs) :
    (saveIntermediateBatch s fs).store.detailsFile = s.details := by
  unfold saveIntermediateBatch fsSaveDetails fsMergeNonexistent fsMergeFailed pushSnapshot
  by_cases hn : s.nonexistent.isEmpty <;> by_cases hf : s.failed.isEmpty <;> simp [hn, hf]

theorem saveIB_failedFetch (s : BatchState) (fs : Fs) :
    (saveIntermediateBatch s fs).store.failedFetchFile = fs.store.failedFetchFile := by
  unfold saveIntermediateBatch fsSaveDetails fsMergeNonexistent fsMergeFailed pushSnapshot
  by_cases hn : s.nonexistent.isEmpty <;> by_cases hf : s.failed.isEmpty <;> simp [hn, hf]

theorem saveIB_failed_sub (s : BatchState) (fs : Fs) (x : Nat) :
    x ∈ (saveIntermediateBatch s fs).store.failedFile →
      x ∈ fs.store.failedFile ∨ x ∈ s.failed := by
  unfold saveIntermediateBatch fsSaveDetails fsMergeNonexistent fsMergeFailed pushSnapshot
  by_cases hn : s.nonexistent.isEmpty <;> by_cases hf : s.failed.isEmpty <;>
    simp [hn, hf, mem_mergeIds] <;> tauto

theorem saveIB_nonexistent_sub (s : BatchState) (fs : Fs) (x : Nat) :
    x ∈ (saveIntermediateBatch s fs).store.nonexistentFile →
      x ∈ fs.store.nonexistentFile ∨ x ∈ s.nonexistent := by
  unfold saveIntermediateBatch fsSaveDetails fsMergeNonexistent fsMergeFailed pushSnapshot
  by_cases hn : s.nonexistent.isEmpty <;> by_cases hf : s.failed.isEmpty <;>
    simp [hn, hf, mem_mergeIds] <;> tauto

theorem saveIB_snapshots (s : BatchState) (fs : Fs) :
    (saveIntermediateBatch s fs).snapshots
      = fs.snapshots ++ [(saveIntermediateBatch s fs).store] := by
  unfold saveIntermediateBatch fsSaveDetails fsMergeNonexistent fsMergeFailed pushSnapshot
  by_cases hn : s.nonexistent.isEmpty <;> by_cases hf : s.failed.isEmpty <;> simp [hn, hf]

theorem processSingleApp_keys_iff (resolve : Nat → Record × Bool) (a : Nat)
    (s : BatchState) (x : String) :
    x ∈ dmKeys (processSingleApp resolve a s).details
      ↔ x ∈ dmKeys s.details ∨ (isSuccessOutcome resolve a = true ∧ x = key a) := by
  rw [processSingleApp_details]
  by_cases h : isSuccessOutcome resolve a = true
  · rw [if_pos h, dmKeys_insert]
    constructor
    · rintro (hx | hx)
      · exact Or.inl hx
      · exact Or.inr ⟨h, hx⟩
    · rintro (hx | ⟨_, hx⟩)
      · exact Or.inl hx
      · exact Or.inr hx
  · rw [if_neg h]
    simp [h]

theorem processSingleApp_failed_iff (resolve : Nat → Record × Bool) (a : Nat)
    (s : BatchState) (x : Nat) :
    x ∈ (processSingleApp resolve a s).failed
      ↔ x ∈ s.failed ∨ (isHardFailOutcome resolve a = true ∧ x = a) := by
  rw [processSingleApp_failed]
  by_cases h : isHardFailOutcome resolve a <;> simp [h]

theorem processSingleApp_nonexistent_iff (resolve : Nat → Record × Bool) (a : Nat)
    (s : BatchState) (x : Nat) :
    x ∈ (processSingleApp resolve a s).nonexistent
      ↔ x ∈ s.nonexistent ∨ (isAbsentOutcome resolve a = true ∧ x = a) := by
  rw [processSingleApp_nonexistent]
  by_cases h : isAbsentOutcome resolve a <;> simp [h]

theorem fetchLoop_invariant (resolve : Nat → Record × Bool) (b : Nat) :
    ∀ (l : List Nat) (i : Nat) (s : BatchState) (fs : Fs),
      (∀ id, (id ∈ fs.store.failedFile ∨ id ∈ fs.store.failedFetchFile
          ∨ id ∈ fs.store.nonexistentFile ∨ id ∈ s.failed ∨ id ∈ s.nonexistent) →
        key id ∉ dmKeys s.details
          ∧ ∀ j ∈ l, isSuccessOutcome resolve j = true → j ≠ id) →
      (∀ j ∈ l, isSuccessOutcome resolve j = false → key j ∉ dmKeys s.details) →
      (∀ st ∈ fs.snapshots, StoreOk st) →
      (∀ id, (id ∈ (fetchLoop resolve b l i s fs).2.store.failedFile
          ∨ id ∈ (fetchLoop resolve b l i s fs).2.store.failedFetchFile
          ∨ id ∈ (fetchLoop resolve b l i s fs).2.store.nonexistentFile
          ∨ id ∈ (fetchLoop resolve b l i s fs).1.failed
          ∨ id ∈ (fetchLoop resolve b l i s fs).1.nonexistent) →
        key id ∉ dmKeys (fetchLoop resolve b l i s fs).1.details)
      ∧ (∀ st ∈ (fetchLoop resolve b l i s fs).2.snapshots, StoreOk st) := by
  intro l
  induction l with
  | nil =>
    intro i s fs hA hC hD
    simp only [fetchLoop]
    exact ⟨fun id h => (hA id h).1, hD⟩
  | cons a l ih =>
    intro i s fs hA hC hD
    simp only [fetchLoop]
    have main : ∀ id, (id ∈ fs.store.failedFile ∨ id ∈ fs.store.failedFetchFile
        ∨ id ∈ fs.store.nonexistentFile
        ∨ id ∈ (processSingleApp resolve a s).failed
        ∨ id ∈ (processSingleApp resolve a s).nonexistent) →
        key id ∉ dmKeys (processSingleApp resolve a s).details
          ∧ ∀ j ∈ l, isSuccessOutcome resolve j = true → j ≠ id := by
      intro id hid
      have hid' : (id ∈ fs.store.failedFile ∨ id ∈ fs.store.failedFetchFile
          ∨ id ∈ fs.store.nonexistentFile ∨ id ∈ s.failed ∨ id ∈ s.nonexistent)
          ∨ ((isHardFailOutcome resolve a = true ∨ isAbsentOutcome resolve a = true)
            ∧ id = a) := by
        rcases hid with h | h | h | h | h
        · exact Or.inl (Or.inl h)
        · exact Or.inl (Or.inr (Or.inl h))
        · exact Or.inl (Or.inr (Or.inr (Or.inl h)))
        · rcases (processSingleApp_failed_iff resolve a s id).mp h with h1 | ⟨h1, h2⟩
          · exact Or.inl (Or.inr (Or.inr (Or.inr (Or.inl h1))))
          · exact Or.inr ⟨Or.inl h1, h2⟩
        · rcases (processSingleApp_nonexistent_iff resolve a s id).mp h with h1 | ⟨h1, h2⟩
          · exact Or.inl (Or.inr (Or.inr (Or.inr (Or.inr h1))))
          · exact Or.inr ⟨Or.inr h1, h2⟩
      rcases hid' with hpool | ⟨houtcome, heq⟩
      · obtain ⟨hk, hfut⟩ := hA id hpool
        refine ⟨?_, fun j hj => hfut j (List.mem_cons_of_mem a hj)⟩
        intro hmem
        rcases (processSingleApp_keys_iff resolve a s (key id)).mp hmem with h1 | ⟨h1, h2⟩
        · exact hk h1
        · exact hfut a (List.mem_cons_self a l) h1 (key_injective h2).symm
      · subst heq
        have hns : isSuccessOutcome resolve id = false := by
          rcases houtcome with h | h
          · exact success_of_hardFail_false resolve id h
          · exact success_of_absent_false resolve id h
        refine ⟨?_, ?_⟩
        · intro hmem
          rcases (processSingleApp_keys_iff resolve id s (key id)).mp hmem with h1 | ⟨h1, _⟩
          · exact hC id (List.mem_cons_self id l) hns h1
          · rw [hns] at h1
            exact absurd h1 (by simp)
        · intro j hj hjs hje
          rw [hje, hns] at hjs
          exact absurd hjs (by simp)
    have hC' : ∀ j ∈ l, isSuccessOutcome resolve j = false →
        key j ∉ dmKeys (processSingleApp resolve a s).details := by
      intro j hj hjs hmem
      rcases (processSingleApp_keys_iff resolve a s (key j)).mp hmem with h1 | ⟨h1, h2⟩
      · exact hC j (List.mem_cons_of_mem a hj) hjs h1
      · have : j = a := key_injective h2
        rw [this, h1] at hjs
        exact absurd hjs (by simp)
    by_cases hcp : ((i + 1) % b == 0) = true
    · rw [if_pos hcp]
      have hA' : ∀ id,
          (id ∈ (saveIntermediateBatch (processSingleApp resolve a s) fs).store.failedFile
            ∨ id ∈ (saveIntermediateBatch (processSingleApp resolve a s) fs).store.failedFetchFile
            ∨ id ∈ (saveIntermediateBatch (processSingleApp resolve a s) fs).store.nonexistentFile
            ∨ id ∈ (processSingleApp resolve a s).failed
            ∨ id ∈ (processSingleApp resolve a s).nonexistent) →
          key id ∉ dmKeys (processSingleApp resolve a s).details
            ∧ ∀ j ∈ l, isSuccessOutcome resolve j = true → j ≠ id := by
        intro id hid
        apply main
        rcases hid with h | h | h | h | h
        · rcases saveIB_failed_sub _ _ _ h with h1 | h1
          · exact Or.inl h1
          · exact Or.inr (Or.inr (Or.inr (Or.inl h1)))
        · rw [saveIB_failedFetch] at h
          exact Or.inr (Or.inl h)
        · rcases saveIB_nonexistent_sub _ _ _ h with h1 | h1
          · exact Or.inr (Or.inr (Or.inl h1))
          · exact Or.inr (Or.inr (Or.inr (Or.inr h1)))
        · exact Or.inr (Or.inr (Or.inr (Or.inl h)))
        · exact Or.inr (Or.inr (Or.inr (Or.inr h)))
      have hD' : ∀ st ∈ (saveIntermediateBatch (processSingleApp resolve a s) fs).snapshots,
          StoreOk st := by
        intro st hst
        rw [saveIB_snapshots] at hst
        rcases List.mem_append.mp hst with h1 | h1
        · exact hD st h1
        · have hst' : st = (saveIntermediateBatch (processSingleApp resolve a s) fs).store := by
            simpa using h1
          subst hst'
          refine ⟨?_, ?_, ?_⟩
          · intro id hidm
            rw [saveIB_details]
            exact (hA' id (Or.inl hidm)).1
          · intro id hidm
            rw [saveIB_details]
            exact (hA' id (Or.inr (Or.inl hidm))).1
          · intro id hidm
            rw [saveIB_details]
            exact (hA' id (Or.inr (Or.inr (Or.inl hidm)))).1
      exact ih (i + 1) (processSingleApp resolve a s) _ hA' hC' hD'
    · rw [if_neg hcp]
      exact ih (i + 1) (processSingleApp resolve a s) _ main hC' hD

/-! Claim theorems. -/

/-- Claim C9: loading any of the three persisted artifacts (detail map,
failed-id set, non-existent-id set) from a missing file returns the empty
structure rather than raising, and likewise for a file containing malformed
JSON. -/
theorem loaders_tolerate_missing_and_malformed :
    loadJsonFile FileContent.missing = []
    ∧ loadJsonFile FileContent.malformed = []
    ∧ loadFailedAppIds FileContent.missing = []
    ∧ loadFailedAppIds FileContent.malformed = []
    ∧ loadNonExistentApps FileContent.missing = []
    ∧ loadNonExistentApps FileContent.malformed = [] :=
  ⟨rfl, rfl, rfl, rfl, rfl, rfl⟩

/-- Claim C5: the accumulative merge of an id list into a persisted id-set
file is set union with duplicates collapsed, the persisted count equals the
cardinality of the union, merging {1,2,3} then {3,4,5} into an empty set
yields exactly {1,2,3,4,5} with count 5, and merging an already-present batch
leaves the set unchanged. -/
theorem merge_ids_union_semantics :
    ((mergeIds (mergeIds [] [1, 2, 3]) [3, 4, 5]).toFinset
        = ({1, 2, 3, 4, 5} : Finset Nat)
      ∧ (mkIdSetFile (mergeIds (mergeIds [] [1, 2, 3]) [3, 4, 5])).count = 5)
    ∧ (∀ e n : List Nat, (mergeIds e n).toFinset = e.toFinset ∪ n.toFinset)
    ∧ (∀ e n : List Nat,
        (mkIdSetFile (mergeIds e n)).count = (e.toFinset ∪ n.toFinset).card)
    ∧ (∀ e n : List Nat, n.toFinset ⊆ e.toFinset →
        (mergeIds e n).toFinset = e.toFinset) := by
  have hunion : ∀ e n : List Nat, (mergeIds e n).toFinset = e.toFinset ∪ n.toFinset := by
    intro e n
    ext x
    simp [mergeIds]
  have hcount : ∀ e n : List Nat,
      (mkIdSetFile (mergeIds e n)).count = (e.toFinset ∪ n.toFinset).card := by
    intro e n
    calc (mkIdSetFile (mergeIds e n)).count = (e ++ n).dedup.length := rfl
      _ = (e ++ n).toFinset.card := (List.card_toFinset (e ++ n)).symm
      _ = (mergeIds e n).toFinset.card := by
          congr 1
          ext x
          simp [mergeIds]
      _ = (e.toFinset ∪ n.toFinset).card := by rw [hunion]
  refine ⟨⟨by decide, by decide⟩, hunion, hcount, ?_⟩
  intro e n hsub
  rw [hunion]
  exact Finset.union_eq_left.mpr hsub

/-- Witness for C5: applying the idempotence component at the concrete lists
[1,2] and [2]. -/
theorem merge_ids_union_semantics_witness :
    (mergeIds [1, 2] [2]).toFinset = ([1, 2] : List Nat).toFinset :=
  merge_ids_union_semantics.2.2.2 [1, 2] [2] (by decide)

/-- Claim C6: when the first attempt returns a well-formed response whose
success flag is false (ABSENT), the resolve wrapper makes exactly one fetch
attempt, returns `(empty, is_hard_failure = false)`, and the driver appends
the id only to the in-flight non-existent list, leaving the failed list and
the detail map untouched. -/
theorem absence_is_terminal (f : Nat → HttpResult) (body : ResponseBody)
    (tries appId : Nat) (s : BatchState)
    (hf : f 0 = HttpResult.ok body) (hs : body.success = false) (ht : 1 ≤ tries) :
    resolveWithRetry tries f = (([], false), 1)
    ∧ (processSingleApp (fun _ => (resolveWithRetry tries f).1) appId s).nonexistent
        = s.nonexistent ++ [appId]
    ∧ (processSingleApp (fun _ => (resolveWithRetry tries f).1) appId s).failed
        = s.failed
    ∧ (processSingleApp (fun _ => (resolveWithRetry tries f).1) appId s).details
        = s.details := by
  obtain ⟨t, ht'⟩ := Nat.exists_eq_add_of_le ht
  have htt : tries = t + 1 := by omega
  subst htt
  have h1 : resolveWithRetry (t + 1) f = (([], false), 1) := by
    simp [resolveWithRetry, retryCall, retryGo, hf, fetchSingle, hs]
  refine ⟨h1, ?_, ?_, ?_⟩ <;> rw [h1] <;>
    simp [processSingleApp]

/-- Witness for C6 at the spec's concrete scenario: a stub that reports ABSENT
for id 99. -/
theorem absence_is_terminal_witness :
    resolveWithRetry 8 (fun _ => HttpResult.ok { success := false, data := [] })
        = (([], false), 1)
    ∧ (processSingleApp
        (fun _ => (resolveWithRetry 8 (fun _ => HttpResult.ok { success := false, data := [] })).1)
        99 { details := [], failed := [], nonexistent := [], calls := [] }).nonexistent
        = ([] : List Nat) ++ [99]
    ∧ (processSingleApp
        (fun _ => (resolveWithRetry 8 (fun _ => HttpResult.ok { success := false, data := [] })).1)
        99 { details := [], failed := [], nonexistent := [], calls := [] }).failed = []
    ∧ (processSingleApp
        (fun _ => (resolveWithRetry 8 (fun _ => HttpResult.ok { success := false, data := [] })).1)
        99 { details := [], failed := [], nonexistent := [], calls := [] }).details = [] :=
  absence_is_terminal (fun _ => HttpResult.ok { success := false, data := [] })
    { success := false, data := [] } 8 99
    { details := [], failed := [], nonexistent := [], calls := [] }
    rfl rfl (by norm_num)

/-- Claim C7: a rate-limit signal on exactly the first two attempts followed
by a success with a non-empty record makes exactly 3 attempts (each rate-limit
response consumes one attempt), stores the record in the detail map under the
stringified id, and leaves both in-flight id lists unchanged; this requires a
maximum attempt count of at least 3. -/
theorem rate_limit_retries_then_success (f : Nat → HttpResult) (body : ResponseBody)
    (tries appId : Nat) (s : BatchState)
    (h0 : f 0 = HttpResult.rateLimited) (h1 : f 1 = HttpResult.rateLimited)
    (h2 : f 2 = HttpResult.ok body) (hsc : body.success = true)
    (hd : body.data.isEmpty = false) (ht : 3 ≤ tries) :
    resolveWithRetry tries f = ((body.data, false), 3)
    ∧ (processSingleApp (fun _ => (resolveWithRetry tries f).1) appId s).details
        = dmInsert (key appId) body.data s.details
    ∧ (processSingleApp (fun _ => (resolveWithRetry tries f).1) appId s).failed
        = s.failed
    ∧ (processSingleApp (fun _ => (resolveWithRetry tries f).1) appId s).nonexistent
        = s.nonexistent := by
  obtain ⟨t, ht'⟩ := Nat.exists_eq_add_of_le ht
  have htt : tries = t + 2 + 1 := by omega
  subst htt
  have hr : resolveWithRetry (t + 2 + 1) f = ((body.data, false), 3) := by
    simp [resolveWithRetry, retryCall, retryGo, h0, h1, h2, fetchSingle, hsc]
  refine ⟨hr, ?_, ?_, ?_⟩ <;> rw [hr] <;>
    simp [processSingleApp, hd]

/-- Witness for C7 at the spec's concrete scenario: a stub that rate-limits
twice then succeeds for id 77, with the production attempt budget 8. -/
theorem rate_limit_retries_then_success_witness :
    resolveWithRetry 8
        (fun k => if k < 2 then HttpResult.rateLimited
          else HttpResult.ok { success := true, data := [("name", "x")] })
      = (([("name", "x")], false), 3)
    ∧ (processSingleApp
        (fun _ => (resolveWithRetry 8
          (fun k => if k < 2 then HttpResult.rateLimited
            else HttpResult.ok { success := true, data := [("name", "x")] })).1)
        77 { details := [], failed := [], nonexistent := [], calls := [] }).details
      = dmInsert (key 77) [("name", "x")] []
    ∧ (processSingleApp
        (fun _ => (resolveWithRetry 8
          (fun k => if k < 2 then HttpResult.rateLimited
            else HttpResult.ok { success := true, data := [("name", "x")] })).1)
        77 { details := [], failed := [], nonexistent := [], calls := [] }).failed = []
    ∧ (processSingleApp
        (fun _ => (resolveWithRetry 8
          (fun k => if k < 2 then HttpResult.rateLimited
            else HttpResult.ok { success := true, data := [("name", "x")] })).1)
        77 { details := [], failed := [], nonexistent := [], calls := [] }).nonexistent
      = [] :=
  rate_limit_retries_then_success
    (fun k => if k < 2 then HttpResult.rateLimited
      else HttpResult.ok { success := true, data := [("name", "x")] })
    { success := true, data := [("name", "x")] } 8 77
    { details := [], failed := [], nonexistent := [], calls := [] }
    (by norm_num) (by norm_num) (by norm_num) rfl rfl (by norm_num)

/-- Claim C10: a response whose success flag is true but whose data object is
empty is classified exactly as if the flag were false: the single-attempt
fetch returns the empty record, the resolve wrapper returns
`(empty, is_hard_failure = false)` after one attempt, the driver files the id
only under non-existent, and a record is stored in the detail map only when it
is non-empty (a success outcome always carries a non-empty record). -/
theorem empty_success_classified_absent (f : Nat → HttpResult) (body : ResponseBody)
    (tries appId : Nat) (s : BatchState)
    (hf : f 0 = HttpResult.ok body) (hsc : body.success = true)
    (hd : body.data = []) (ht : 1 ≤ tries) :
    fetchSingle (HttpResult.ok body) = Except.ok []
    ∧ fetchSingle (HttpResult.ok { success := false, data := body.data })
        = fetchSingle (HttpResult.ok body)
    ∧ resolveWithRetry tries f = (([], false), 1)
    ∧ (processSingleApp (fun _ => (resolveWithRetry tries f).1) appId s).nonexistent
        = s.nonexistent ++ [appId]
    ∧ (processSingleApp (fun _ => (resolveWithRetry tries f).1) appId s).failed
        = s.failed
    ∧ (processSingleApp (fun _ => (resolveWithRetry tries f).1) appId s).details
        = s.details
    ∧ (∀ (resolve : Nat → Record × Bool) (id : Nat) (s2 : BatchState),
        (resolve id).1.isEmpty = true →
          (processSingleApp resolve id s2).details = s2.details) := by
  obtain ⟨t, ht'⟩ := Nat.exists_eq_add_of_le ht
  have htt : tries = t + 1 := by omega
  subst htt
  have hone : fetchSingle (HttpResult.ok body) = Except.ok [] := by
    simp [fetchSingle, hsc, hd]
  have hr : resolveWithRetry (t + 1) f = (([], false), 1) := by
    simp [resolveWithRetry, retryCall, retryGo, hf, hone]
  refine ⟨hone, ?_, hr, ?_, ?_, ?_, ?_⟩
  · rw [hone]
    simp [fetchSingle]
  · rw [hr]
    simp [processSingleApp]
  · rw [hr]
    simp [processSingleApp]
  · rw [hr]
    simp [processSingleApp]
  · intro resolve id s2 hempty
    rw [processSingleApp_details]
    rw [if_neg (by simp [isSuccessOutcome, hempty])]

/-- Witness for C10: a stub returning success=true with an empty data object. -/
theorem empty_success_classified_absent_witness :
    fetchSingle (HttpResult.ok { success := true, data := [] }) = Except.ok []
    ∧ fetchSingle (HttpResult.ok { success := false, data := ([] : Record) })
        = fetchSingle (HttpResult.ok { success := true, data := [] })
    ∧ resolveWithRetry 8 (fun _ => HttpResult.ok { success := true, data := [] })
        = (([], false), 1)
    ∧ (processSingleApp
        (fun _ => (resolveWithRetry 8 (fun _ => HttpResult.ok { success := true, data := [] })).1)
        3 { details := [], failed := [], nonexistent := [], calls := [] }).nonexistent
        = ([] : List Nat) ++ [3]
    ∧ (processSingleApp
        (fun _ => (resolveWithRetry 8 (fun _ => HttpResult.ok { success := true, data := [] })).1)
        3 { details := [], failed := [], nonexistent := [], calls := [] }).failed = []
    ∧ (processSingleApp
        (fun _ => (resolveWithRetry 8 (fun _ => HttpResult.ok { success := true, data := [] })).1)
        3 { details := [], failed := [], nonexistent := [], calls := [] }).details = []
    ∧ (∀ (resolve : Nat → Record × Bool) (id : Nat) (s2 : BatchState),
        (resolve id).1.isEmpty = true →
          (processSingleApp resolve id s2).details = s2.details) :=
  empty_success_classified_absent
    (fun _ => HttpResult.ok { success := true, data := [] })
    { success := true, data := [] } 8 3
    { details := [], failed := [], nonexistent := [], calls := [] }
    rfl rfl rfl (by norm_num)

/-- Store in which every persisted artifact is empty. -/
def emptyStore : Store :=
  { detailsFile := [], failedFile := [], failedFetchFile := [], nonexistentFile := [] }

/-- Filesystem with an empty store, zero writes and no snapshots. -/
def emptyFs : Fs :=
  { store := emptyStore, writeCount := 0, snapshots := [] }

/-- Stub resolver used in the C8 counterexample (never consulted, as the input
is empty). -/
def c8Resolve : Nat → Record × Bool := fun _ => ([], false)

/-- Counterexample to C8: `fetch_all_app_details` run on an empty `app_ids`
sequence still performs one persistence write — the unconditional final save of
the detail map — so the run is not free of I/O beyond the initial load. -/
theorem empty_input_still_writes_final_save :
    (fetchAllAppDetails c8Resolve 100 [] emptyFs).2.writeCount = 1
    ∧ ¬ (fetchAllAppDetails c8Resolve 100 [] emptyFs).2.writeCount = 0 := by
  decide

/-- Claim C8 (amended): on empty input the batch driver returns immediately
with empty in-flight lists, the loaded detail map, and zero fetch calls, and
the persisted store is left with unchanged contents; however
`fetch_all_app_details` itself still performs exactly one write (the final
save, rewriting the loaded map), while the `run_fetch_phase` wrapper and the
retry-batch entry point perform no write at all on empty input. -/
theorem empty_input_returns_loaded_state (resolve : Nat → Record × Bool)
    (b : Nat) (fs : Fs) :
    (fetchAllAppDetails resolve b [] fs).1.details = fs.store.detailsFile
    ∧ (fetchAllAppDetails resolve b [] fs).1.failed = []
    ∧ (fetchAllAppDetails resolve b [] fs).1.nonexistent = []
    ∧ (fetchAllAppDetails resolve b [] fs).1.calls = []
    ∧ (fetchAllAppDetails resolve b [] fs).2.writeCount = fs.writeCount + 1
    ∧ (fetchAllAppDetails resolve b [] fs).2.store = fs.store
    ∧ runFetchPhase resolve b [] fs
        = ({ details := [], failed := [], nonexistent := [], calls := [] }, fs)
    ∧ (processFailedAppsBatch resolve b [] fs).fs = fs
    ∧ (processFailedAppsBatch resolve b [] fs).stillFailed = []
    ∧ (processFailedAppsBatch resolve b [] fs).nonExistent = [] :=
  ⟨rfl, rfl, rfl, rfl, rfl, rfl, rfl, rfl, rfl, rfl⟩

/-- Record used in the C1 counterexample. -/
def c1Record : Record := [("name", "x")]

/-- Store whose detail map already resolves app id 1. -/
def c1Store : Store :=
  { detailsFile := [(key 1, c1Record)], failedFile := [], failedFetchFile := [],
    nonexistentFile := [] }

/-- Filesystem whose detail map already resolves app id 1. -/
def c1Fs : Fs :=
  { store := c1Store, writeCount := 0, snapshots := [] }

/-- Stub resolver for the C1 counterexample. -/
def c1Resolve : Nat → Record × Bool := fun _ => (c1Record, false)

/-- Counterexample to C1: app id 1 is already a key (in string form) of the
detail map loaded by the batch driver, yet the run issues one remote fetch
call for it — `process_single_app` on the non-retry path has no
already-in-map check, so the driver does not skip it. -/
theorem batch_driver_refetches_resolved_id :
    dmContains (key 1) c1Fs.store.detailsFile = true
    ∧ (fetchAllAppDetails c1Resolve 100 [1] c1Fs).1.calls = [1]
    ∧ ¬ (fetchAllAppDetails c1Resolve 100 [1] c1Fs).1.calls = [] := by
  decide

/-- Claim C1 (amended): the skip-if-already-resolved check exists only on the
retry path: retry-mode per-app processing leaves the state untouched (zero
fetch calls, no list appends) for an id whose string form is a key of the
detail map, and the local-validation phase never selects such an id into the
batch work list — that is how resumed runs avoid re-spending quota — whereas
the batch driver itself re-fetches ids already present (see the
counterexample). -/
theorem skip_applies_only_in_retry_mode (resolve : Nat → Record × Bool)
    (id : Nat) (s : BatchState)
    (h : dmContains (key id) s.details = true) :
    processSingleFailedApp resolve id s = s
    ∧ (∀ (catalogIds nonExistent : List Nat),
        id ∉ validateAppsLocally catalogIds s.details nonExistent) := by
  constructor
  · unfold processSingleFailedApp
    rw [if_pos h]
  · intro catalogIds ne hmem
    unfold validateAppsLocally at hmem
    rw [List.mem_filterMap] at hmem
    obtain ⟨a, _, hfa⟩ := hmem
    by_cases h1 : ne.contains a
    · rw [if_pos h1] at hfa
      exact absurd hfa (by simp)
    · rw [if_neg h1] at hfa
      by_cases h2 : dmContains (key a) s.details
      · rw [if_pos h2] at hfa
        exact absurd hfa (by simp)
      · rw [if_neg h2] at hfa
        have ha : a = id := by simpa using hfa
        rw [ha] at h2
        exact h2 h

/-- Witness for the amended C1 at a concrete already-resolved id. -/
theorem skip_applies_only_in_retry_mode_witness :
    processSingleFailedApp (fun _ => ([], true)) 42
        { details := [(key 42, [("a", "b")])], failed := [], nonexistent := [], calls := [] }
      = { details := [(key 42, [("a", "b")])], failed := [], nonexistent := [], calls := [] }
    ∧ (∀ (catalogIds nonExistent : List Nat),
        42 ∉ validateAppsLocally catalogIds [(key 42, [("a", "b")])] nonExistent) :=
  skip_applies_only_in_retry_mode (fun _ => ([], true)) 42
    { details := [(key 42, [("a", "b")])], failed := [], nonexistent := [], calls := [] }
    (by decide)

/-- Claim C4: an id whose string form is already a key of the detail map at
the start of a retry-sweep iteration is neither re-fetched (it never reaches
the resolver) nor added to the returned still-failed or non-existent lists,
even when it occurs in the failed-id input of that sweep. -/
theorem sweep_skips_resolved_ids (resolve : Nat → Record × Bool) (b : Nat)
    (failedIds : List Nat) (fs : Fs) (id : Nat)
    (h : dmContains (key id) fs.store.detailsFile = true) :
    id ∉ (processFailedAppsBatch resolve b failedIds fs).state.calls
    ∧ id ∉ (processFailedAppsBatch resolve b failedIds fs).stillFailed
    ∧ id ∉ (processFailedAppsBatch resolve b failedIds fs).nonExistent := by
  have hatp : id ∉ failedIds.filter
      (fun appId => ¬ dmContains (key appId) fs.store.detailsFile) := by
    intro hmem
    have h2 := (List.mem_filter.mp hmem).2
    simp only [decide_eq_true_eq] at h2
    exact h2 h
  simp only [processFailedAppsBatch]
  by_cases he : (failedIds.filter
      (fun appId => ¬ dmContains (key appId) fs.store.detailsFile)).isEmpty
  · rw [if_pos he]
    refine ⟨?_, ?_, ?_⟩ <;> simp
  · rw [if_neg he]
    refine ⟨?_, ?_, ?_⟩
    · intro hmem
      rcases retryLoop_calls_sub resolve b _ 0 _ fs id hmem with h1 | h1
      · exact absurd h1 (by simp)
      · exact hatp h1
    · intro hmem
      rcases retryLoop_failed_sub resolve b _ 0 _ fs id hmem with h1 | h1
      · exact absurd h1 (by simp)
      · exact hatp h1
    · intro hmem
      rcases retryLoop_nonexistent_sub resolve b _ 0 _ fs id hmem with h1 | h1
      · exact absurd h1 (by simp)
      · exact hatp h1

/-- Store for the C4 witness: the detail map already resolves 10. -/
def c4Store : Store :=
  { detailsFile := [(key 10, [("a", "b")])], failedFile := [], failedFetchFile := [],
    nonexistentFile := [] }

/-- Filesystem for the C4 witness. -/
def c4Fs : Fs :=
  { store := c4Store, writeCount := 0, snapshots := [] }

/-- Witness for C4: a sweep over failed input [10, 11] against a detail map
that already resolves 10. -/
theorem sweep_skips_resolved_ids_witness :
    10 ∉ (processFailedAppsBatch (fun _ => ([], true)) 50 [10, 11]
        c4Fs).state.calls
    ∧ 10 ∉ (processFailedAppsBatch (fun _ => ([], true)) 50 [10, 11]
        c4Fs).stillFailed
    ∧ 10 ∉ (processFailedAppsBatch (fun _ => ([], true)) 50 [10, 11]
        c4Fs).nonExistent :=
  sweep_skips_resolved_ids (fun _ => ([], true)) 50 [10, 11]
    c4Fs 10 (by decide)

theorem processFailedAppsBatch_spec (resolve : Nat → Record × Bool) (b : Nat)
    (failedIds : List Nat) (fs : Fs) :
    (processFailedAppsBatch resolve b failedIds fs).stillFailed
        = (failedIds.filter
            (fun appId => ¬ dmContains (key appId) fs.store.detailsFile)).filter
            (fun x => isHardFailOutcome resolve x)
    ∧ (processFailedAppsBatch resolve b failedIds fs).nonExistent
        = (failedIds.filter
            (fun appId => ¬ dmContains (key appId) fs.store.detailsFile)).filter
            (fun x => isAbsentOutcome resolve x)
    ∧ (∀ x, x ∈ fs.store.nonexistentFile →
        x ∈ (processFailedAppsBatch resolve b failedIds fs).fs.store.nonexistentFile)
    ∧ (∀ x, x ∈ (processFailedAppsBatch resolve b failedIds fs).fs.store.nonexistentFile →
        x ∈ fs.store.nonexistentFile
          ∨ x ∈ (processFailedAppsBatch resolve b failedIds fs).nonExistent) := by
  simp only [processFailedAppsBatch]
  by_cases he : (failedIds.filter
      (fun appId => ¬ dmContains (key appId) fs.store.detailsFile)).isEmpty
  · rw [if_pos he]
    have hnil : failedIds.filter
        (fun appId => ¬ dmContains (key appId) fs.store.detailsFile) = [] := by
      simpa using he
    exact ⟨by rw [hnil]; rfl, by rw [hnil]; rfl, fun x h => h, fun x h => Or.inl h⟩
  · rw [if_neg he]
    have H : ∀ a ∈ failedIds.filter
        (fun appId => ¬ dmContains (key appId) fs.store.detailsFile),
        isSuccessOutcome resolve a = false →
          dmContains (key a) fs.store.detailsFile = false := by
      intro a ha _
      have h2 := (List.mem_filter.mp ha).2
      simp only [decide_eq_true_eq] at h2
      cases hcc : dmContains (key a) fs.store.detailsFile
      · rfl
      · exact absurd hcc h2
    obtain ⟨hf, hn, _⟩ := retryLoop_char resolve b
      (failedIds.filter (fun appId => ¬ dmContains (key appId) fs.store.detailsFile)) 0
      { details := fs.store.detailsFile, failed := [], nonexistent := [], calls := [] }
      fs H
    refine ⟨?_, ?_, ?_, ?_⟩
    · rw [hf]
      simp
    · rw [hn]
      simp
    · intro x hx
      exact retryLoop_nonexistentFile_super resolve b _ 0 _ fs x hx
    · intro x hx
      rcases retryLoop_nonexistentFile_sub resolve b _ 0 _ fs x hx with h1 | h1
      · exact Or.inl h1
      · exact Or.inr h1

/-- Resolver for the C3 example: 10 succeeds, 20 is confirmed absent, 30 still
hard-fails. -/
def c3Resolve : Nat → Record × Bool := fun id =>
  if id == 10 then ([("name", "x")], false)
  else if id == 20 then ([], false)
  else ([], true)

/-- Filesystem for the C3 example: persisted failed-fetch set {10, 20, 30}. -/
def c3Store : Store :=
  { detailsFile := [], failedFile := [], failedFetchFile := [10, 20, 30],
    nonexistentFile := [] }

/-- Filesystem for the C3 example. -/
def c3Fs : Fs :=
  { store := c3Store, writeCount := 0, snapshots := [] }

/-- Claim C3: after one retry-sweep iteration, the persisted failed-fetch file
equals exactly the list of ids that hard-failed during that iteration (an
overwrite — ids of the old set that succeeded or were confirmed absent
disappear), while the persisted non-existent file becomes the union of its old
contents with the ids confirmed absent during the iteration; in the spec's
example, from failed set {10,20,30} with 10 succeeding, 20 absent and 30 still
failing, the persisted failed set becomes exactly {30} and the non-existent
set now includes 20. -/
theorem retry_sweep_overwrite_semantics (resolve : Nat → Record × Bool)
    (b : Nat) (fs : Fs) :
    ((retrySweepIteration resolve b fs).store.failedFetchFile
        = (fs.store.failedFetchFile.filter
            (fun appId => ¬ dmContains (key appId) fs.store.detailsFile)).filter
            (fun x => isHardFailOutcome resolve x)
      ∧ (∀ x, x ∈ (retrySweepIteration resolve b fs).store.nonexistentFile
          ↔ x ∈ fs.store.nonexistentFile
            ∨ x ∈ (fs.store.failedFetchFile.filter
                (fun appId => ¬ dmContains (key appId) fs.store.detailsFile)).filter
                (fun x => isAbsentOutcome resolve x)))
    ∧ ((retrySweepIteration c3Resolve 50 c3Fs).store.failedFetchFile = [30]
      ∧ 20 ∈ (retrySweepIteration c3Resolve 50 c3Fs).store.nonexistentFile
      ∧ 10 ∉ (retrySweepIteration c3Resolve 50 c3Fs).store.failedFetchFile
      ∧ 20 ∉ (retrySweepIteration c3Resolve 50 c3Fs).store.failedFetchFile
      ∧ dmContains (key 10) (retrySweepIteration c3Resolve 50 c3Fs).store.detailsFile
          = true) := by
  obtain ⟨hsf, hne, hsuper, hsub⟩ := processFailedAppsBatch_spec resolve b
    fs.store.failedFetchFile fs
  constructor
  · constructor
    · simp only [retrySweepIteration, pushSnapshot, fsOverwriteFailedFetch]
      exact hsf
    · intro x
      simp only [retrySweepIteration, pushSnapshot, fsOverwriteFailedFetch]
      by_cases hemp :
          (processFailedAppsBatch resolve b fs.store.failedFetchFile fs).nonExistent.isEmpty
      · rw [if_pos hemp]
        have hnil : (processFailedAppsBatch resolve b
            fs.store.failedFetchFile fs).nonExistent = [] := by
          simpa using hemp
        rw [hne] at hnil
        constructor
        · intro hx
          rcases hsub x hx with h1 | h1
          · exact Or.inl h1
          · rw [hne, hnil] at h1
            exact absurd h1 (by simp)
        · rintro (hx | hx)
          · exact hsuper x hx
          · rw [hnil] at hx
            exact absurd hx (by simp)
      · rw [if_neg hemp]
        simp only [fsMergeNonexistent]
        rw [mem_mergeIds]
        constructor
        · rintro (hx | hx)
          · rcases hsub x hx with h1 | h1
            · exact Or.inl h1
            · rw [hne] at h1
              exact Or.inr h1
          · rw [hne] at hx
            exact Or.inr hx
        · rintro (hx | hx)
          · exact Or.inl (hsuper x hx)
          · rw [← hne] at hx
            exact Or.inr hx
  · refine ⟨by decide, by decide, by decide, by decide, by decide⟩

/-- Resolver for the first C2 run: id 5 hard-fails. -/
def c2Resolve1 : Nat → Record × Bool := fun _ => ([], true)

/-- Resolver for the second C2 run: id 5 now succeeds. -/
def c2Resolve2 : Nat → Record × Bool := fun _ => ([("name", "y")], false)

/-- Filesystem state after the first C2 run (5 hard-failed and was
checkpointed into the persisted failed set). -/
def c2Fs1 : Fs := (fetchAllAppDetails c2Resolve1 1 [5] emptyFs).2

/-- Filesystem state after the second C2 run (5 succeeded and was saved into
the persisted detail map, but nothing removed it from the failed set). -/
def c2Fs2 : Fs := (fetchAllAppDetails c2Resolve2 1 [5] c2Fs1).2

/-- Counterexample to C2: across two batch-driver runs on the same input — 5
hard-failing in the first and succeeding in the second — the state after the
second run's final save has 5 in the persisted failed set while its string
form is a key of the persisted detail map: the batch driver never deletes ids
from the failed set, so the disjointness invariant fails. -/
theorem disjointness_violated_across_runs :
    5 ∈ c2Fs1.store.failedFile
    ∧ 5 ∈ c2Fs2.store.failedFile
    ∧ key 5 ∈ dmKeys c2Fs2.store.detailsFile
    ∧ ¬ StoreOk c2Fs2.store := by
  refine ⟨by decide, by decide, by decide, ?_⟩
  intro h
  exact h.1 5 (by decide) (by decide)

/-- Claim C2 (amended): for a single batch-driver run (`run_fetch_phase` over
`fetch_all_app_details`) the detail-map keys stay disjoint from all
persisted id sets after every completed checkpoint and after the final saves,
provided the run starts from a disjoint store and the input ids are fresh
work: ids with a non-success outcome are not already resolved, and ids with a
success outcome are not already in a persisted id set.  Without those
preconditions — in particular for an id that hard-failed in an earlier run and
succeeds now — the invariant fails, because the batch driver only ever merges
into the persisted failed set and never removes from it (see the
counterexample). -/
theorem batch_run_disjointness (resolve : Nat → Record × Bool) (b : Nat)
    (appIds : List Nat) (fs : Fs)
    (h0f : keyFree fs.store.detailsFile fs.store.failedFile)
    (h0ff : keyFree fs.store.detailsFile fs.store.failedFetchFile)
    (h0n : keyFree fs.store.detailsFile fs.store.nonexistentFile)
    (hns : ∀ id ∈ appIds, isSuccessOutcome resolve id = false →
        key id ∉ dmKeys fs.store.detailsFile)
    (hsu : ∀ id ∈ appIds, isSuccessOutcome resolve id = true →
        id ∉ fs.store.failedFile ∧ id ∉ fs.store.failedFetchFile
          ∧ id ∉ fs.store.nonexistentFile)
    (hsnap : fs.snapshots = []) :
    (∀ st ∈ (runFetchPhase resolve b appIds fs).2.snapshots, StoreOk st)
    ∧ StoreOk (runFetchPhase resolve b appIds fs).2.store := by
  by_cases hemp : appIds.isEmpty
  · simp only [runFetchPhase]
    rw [if_pos hemp, hsnap]
    exact ⟨by simp, h0f, h0ff, h0n⟩
  · have master := fetchLoop_invariant resolve b appIds 0
      { details := fs.store.detailsFile, failed := [], nonexistent := [], calls := [] }
      fs ?_ ?_ ?_
    rotate_left
    · intro id hid
      have hfile : id ∈ fs.store.failedFile ∨ id ∈ fs.store.failedFetchFile
          ∨ id ∈ fs.store.nonexistentFile := by
        rcases hid with h | h | h | h | h
        · exact Or.inl h
        · exact Or.inr (Or.inl h)
        · exact Or.inr (Or.inr h)
        · exact absurd h (by simp)
        · exact absurd h (by simp)
      constructor
      · rcases hfile with h | h | h
        · exact h0f id h
        · exact h0ff id h
        · exact h0n id h
      · intro j hj hjs hje
        subst hje
        obtain ⟨hn1, hn2, hn3⟩ := hsu j hj hjs
        rcases hfile with h | h | h
        · exact hn1 h
        · exact hn2 h
        · exact hn3 h
    · exact hns
    · rw [hsnap]
      simp
    obtain ⟨P1, P2⟩ := master
    have hOkNew : ∀ (m : DetailMap), (∀ x, x ∈ dmKeys m ↔
        x ∈ dmKeys (fetchLoop resolve b appIds 0
          { details := fs.store.detailsFile, failed := [], nonexistent := [],
            calls := [] } fs).1.details) →
        StoreOk { (fetchLoop resolve b appIds 0
          { details := fs.store.detailsFile, failed := [], nonexistent := [],
            calls := [] } fs).2.store with detailsFile := m } := by
      intro m hm
      refine ⟨?_, ?_, ?_⟩
      · intro id hid hmem
        exact P1 id (Or.inl hid) ((hm (key id)).mp hmem)
      · intro id hid hmem
        exact P1 id (Or.inr (Or.inl hid)) ((hm (key id)).mp hmem)
      · intro id hid hmem
        exact P1 id (Or.inr (Or.inr (Or.inl hid))) ((hm (key id)).mp hmem)
    simp only [runFetchPhase]
    rw [if_neg hemp]
    simp only [fetchAllAppDetails, pushSnapshot, fsSaveDetails, fsOverwriteFailedFetch,
      fsOverwriteNonexistent]
    constructor
    · intro st hst
      have hst' : st ∈ (fetchLoop resolve b appIds 0
          { details := fs.store.detailsFile, failed := [], nonexistent := [],
            calls := [] } fs).2.snapshots
          ∨ st = { (fetchLoop resolve b appIds 0
            { details := fs.store.detailsFile, failed := [], nonexistent := [],
              calls := [] } fs).2.store with
            detailsFile := (fetchLoop resolve b appIds 0
              { details := fs.store.detailsFile, failed := [], nonexistent := [],
                calls := [] } fs).1.details } := by
        by_cases hf : (fetchLoop resolve b appIds 0
            { details := fs.store.detailsFile, failed := [], nonexistent := [],
              calls := [] } fs).1.failed.isEmpty <;>
          by_cases hn : (fetchLoop resolve b appIds 0
            { details := fs.store.detailsFile, failed := [], nonexistent := [],
              calls := [] } fs).1.nonexistent.isEmpty <;>
          simp only [hf, hn, if_true, if_false, Bool.false_eq_true, if_neg,
            List.mem_append, List.mem_singleton] at hst <;>
          tauto
      rcases hst' with h1 | h1
      · exact P2 st h1
      · rw [h1]
        exact hOkNew _ (fun x => Iff.rfl)
    · by_cases hf : (fetchLoop resolve b appIds 0
          { details := fs.store.detailsFile, failed := [], nonexistent := [],
            calls := [] } fs).1.failed.isEmpty <;>
        by_cases hn : (fetchLoop resolve b appIds 0
          { details := fs.store.detailsFile, failed := [], nonexistent := [],
            calls := [] } fs).1.nonexistent.isEmpty <;>
        simp only [hf, hn, if_true, if_false] <;>
        refine ⟨?_, ?_, ?_⟩ <;> intro id hid hmem
      all_goals {
        first
        | exact P1 id (Or.inl hid) hmem
        | exact P1 id (Or.inr (Or.inl hid)) hmem
        | exact P1 id (Or.inr (Or.inr (Or.inl hid))) hmem
        | exact P1 id (Or.inr (Or.inr (Or.inr (Or.inl hid)))) hmem
        | exact P1 id (Or.inr (Or.inr (Or.inr (Or.inr hid)))) hmem
      }

/-- Witness for the amended C2: a fresh run over input [7] (which succeeds)
against an initially empty store. -/
theorem batch_run_disjointness_witness :
    (∀ st ∈ (runFetchPhase (fun _ => ([("n", "v")], false)) 1 [7] emptyFs).2.snapshots,
      StoreOk st)
    ∧ StoreOk (runFetchPhase (fun _ => ([("n", "v")], false)) 1 [7] emptyFs).2.store :=
  batch_run_disjointness (fun _ => ([("n", "v")], false)) 1 [7] emptyFs
    (by intro id h; simp [emptyFs, emptyStore] at h)
    (by intro id h; simp [emptyFs, emptyStore] at h)
    (by intro id h; simp [emptyFs, emptyStore] at h)
    (by intro id hid hfalse; simp at hid; subst hid; exact absurd hfalse (by decide))
    (by intro id hid _; simp [emptyFs, emptyStore])
    rfl

end SteamApps
